import Mathlib

/-!
Shallow embedding of the mayaLint check framework: the validation checks under
`modelChecker/checks/` and `src/modelChecker/checks/`, the progress widget
`src/modelChecker/ui/progress_ui.py` and the report widget
`modelChecker/ui/report_ui.py`, together with theorems settling the frozen
claims about result shapes, detection behaviour, error containment and
backend symmetry.

Conventions of the embedding:
- Python `dict` / `defaultdict(list)` values are association lists kept in
  insertion order; `d[k].append(x)` on a `defaultdict(list)` creates the
  entry on first append, which `dictExtend` mirrors (extending by an empty
  batch leaves the dict unchanged).
- Maya UV floats are embedded as rationals; Python `int(q)` truncates toward
  zero, embedded as `pyInt`.
- The opaque runner object handed to each check, plus the external
  collaborators (`maya_utility`, `cmds`) the check bodies call, are bundled
  into one `Runner` record of enumerations and query functions.
-/

namespace MayaLint

/-- Entity kinds a check can inspect. Modelled from the spec: `constants.py`
defining `NodeType` is not among the provided sources; the spec's EntityKind
enumerates whole-node, vertex, edge, face and UV, and the check sources
reference `NodeType.NODE`, `NodeType.FACE` and `NodeType.UV`. -/
inductive NodeType where
  | NODE
  | VERTEX
  | EDGE
  | FACE
  | UV
deriving DecidableEq, Repr

/-- Backend tags. Modelled from the spec: `constants.py` defining `DataType`
is not among the provided sources; usage shows `DataType.MAYA`, `DataType.USD`,
`DataType.BOTH` (check_tooltip_widget.py) and `DataType.Node`
(unfrozen_transforms_check.py). -/
inductive DataType where
  | MAYA
  | USD
  | BOTH
  | Node
deriving DecidableEq, Repr

/-- A mesh face as seen through Maya's `MItMeshPolygon` iterator: `getEdges`
returns the face's edge ids; `getUVs` either returns the per-face-vertex UV
arrays (two equal-length arrays, modelled as one list of (U, V) pairs) or
raises when the face has no UVs (modelled as `none`). -/
structure Face where
  edges : List Nat
  uvs : Option (List (ℚ × ℚ))
deriving DecidableEq

/-- A mesh: `faces` in `MItMeshPolygon` iteration order (the iterator index of
a face is its position in the list, starting at 0), and `meshUVs` the
mesh-level UV array returned by `MFnMesh.getUVs` (two equal-length arrays,
modelled as one list of (U, V) pairs indexed by UV id). -/
structure Mesh where
  faces : List Face
  meshUVs : List (ℚ × ℚ)
deriving DecidableEq

/-- The runner object handed to every check entry point, bundled with the
external collaborators the check bodies call (`maya_utility.get_name_from_uuid`,
`cmds.listConnections`, `cmds.xform`, `cmds.exactWorldBoundingBox`).
Enumerations are finite sequences; collaborator queries are pure functions of
the node name, matching the spec's read-only enumerated-scene context. -/
structure Runner where
  get_maya_nodes : List String
  get_maya_root_nodes : List String
  get_usd_nodes : List String
  get_usd_root_nodes : List String
  get_mesh_iterator : List (String × Mesh)
  get_name_from_uuid : String → String
  has_display_layer : String → Bool
  xform_pivot : String → List ℚ
  xform_translation : String → List ℚ
  xform_rotation : String → List ℚ
  xform_scale : String → List ℚ
  bbox_min_y : String → ℚ

/-- The two shapes a check result can dynamically take in the Python source:
a plain list of entity ids, or a dict from entity id to component indices. -/
inductive CheckResult where
  | nodes : List String → CheckResult
  | components : List (String × List Nat) → CheckResult
deriving DecidableEq

/-- First-match lookup in an insertion-ordered association list, as Python
dict subscripting (dict keys are unique in Python; the embedding's builders
below preserve that invariant). -/
def alookup (s : String) : List (String × β) → Option β
  | [] => none
  | (k, v) :: rest => if k = s then some v else alookup s rest

/-- `d[k].extend(vs)` on a dict whose values are lists, creating the entry
(at the end, as dict insertion order does) when absent. -/
def addToEntry (k : String) (vs : List β) : List (String × List β) → List (String × List β)
  | [] => [(k, vs)]
  | (k', l) :: rest => if k' = k then (k', l ++ vs) :: rest else (k', l) :: addToEntry k vs rest

/-- A batch of `defaultdict(list)` appends `d[k].append(v)` for `v ∈ vs`: the
entry is only created when at least one append happens. -/
def dictExtend (d : List (String × List β)) (k : String) (vs : List β) : List (String × List β) :=
  match vs with
  | [] => d
  | _ => addToEntry k vs d

/-- The indices (starting from `i`) of the elements satisfying `pred`, in
order: the shape of every `while not it.isDone(): if pred: out.append(it.index()); it.next()`
loop in the check sources. -/
def flaggedIdx (pred : α → Bool) : Nat → List α → List Nat
  | _, [] => []
  | i, a :: rest => if pred a then i :: flaggedIdx pred (i + 1) rest else flaggedIdx pred (i + 1) rest

/-- Python `int(q)`: truncation toward zero. -/
def pyInt (q : ℚ) : ℤ := q.num.tdiv (q.den : ℤ)

/-- `collections.defaultdict(list)` grouping: `d[keyOf x].append(x)` for each
`x` in order, as in `DuplicatedNamesCheck.run` / `usd_run`. -/
def groupFold (keyOf : α → String) (xs : List α) : List (String × List α) :=
  xs.foldl (fun d x => addToEntry (keyOf x) [x] d) []

/-- `for vs in d.values(): if len(vs) > 1: invalid.extend(vs)`. -/
def invalidOf (groups : List (String × List α)) : List α :=
  (groups.filter (fun g => decide (1 < g.2.length))).flatMap (fun g => g.2)

/-- Python `name.rsplit(sep, 1)[-1]`: the part of the string after its last
occurrence of `sep` (the whole string when `sep` does not occur). -/
def shortName (sep : Char) (s : String) : String :=
  String.mk (s.data.foldl (fun acc c => if c = sep then [] else acc ++ [c]) [])

end MayaLint

namespace MayaLint.NgonCheck

/-- Static class attributes of `NgonCheck` (src/src/modelChecker/checks/ngon_check.py). -/
def name : String := "ngons"

/-- `len(face_iterator.getEdges()) > 4`. -/
def pred (f : Face) : Bool := decide (4 < f.edges.length)

/-- `NgonCheck.run`: for each mesh in the iterator, append to `ngons[uuid]`
the index of every face with more than 4 edges. -/
def run (r : Runner) : List (String × List Nat) :=
  r.get_mesh_iterator.foldl (fun d p => dictExtend d p.1 (flaggedIdx pred 0 p.2.faces)) []

/-- The dynamic shape of the returned Python object: a dict. -/
def result (r : Runner) : CheckResult := .components (run r)

end MayaLint.NgonCheck

namespace MayaLint.CrossBorderCheck

/-- UV-tile coordinate: `int(q) if q > 0 else int(q) - 1`
(src/src/modelChecker/checks/cross_border_check.py). -/
def tileOf (q : ℚ) : ℤ := if 0 < q then pyInt q else pyInt q - 1

/-- A face crosses a UV border when its UVs touch more than one U tile or
more than one V tile: `len(U) > 1 or len(V) > 1` over the sets of tile
coordinates. -/
def facePred (uvs : List (ℚ × ℚ)) : Bool :=
  decide (1 < ((uvs.map fun p => tileOf p.1).toFinset.card)) ||
    decide (1 < ((uvs.map fun p => tileOf p.2).toFinset.card))

/-- The flagging decision the face loop makes for one face: a face without
UVs is never flagged; a face with UVs is flagged by `facePred`. -/
def cbPred (f : Face) : Bool :=
  match f.uvs with
  | some uvs => facePred uvs
  | none => false

/-- The warning `cmds.warning` receives for face index `i`. -/
def warnMsg (i : Nat) : String := "Face " ++ toString i ++ " has no UVs"

/-- The per-mesh face loop of `CrossBorderCheck.run`, with iterator index
starting at `i`: a face whose `getUVs` raises (uvs = `none`) is skipped with a
`cmds.warning` message; otherwise it is flagged when `facePred` holds.
Returns (flagged indices, warning messages), each in face order. -/
def faceLoop : Nat → List Face → List Nat × List String
  | _, [] => ([], [])
  | i, f :: fs =>
    match f.uvs with
    | some uvs =>
      let rest := faceLoop (i + 1) fs
      (if facePred uvs then i :: rest.1 else rest.1, rest.2)
    | none =>
      let rest := faceLoop (i + 1) fs
      (rest.1, ("Face " ++ toString i ++ " has no UVs") :: rest.2)

/-- `CrossBorderCheck.run` together with the warnings it emits through
`cmds.warning`. -/
def runFull (r : Runner) : List (String × List Nat) × List String :=
  r.get_mesh_iterator.foldl
    (fun acc p =>
      let fr := faceLoop 0 p.2.faces
      (dictExtend acc.1 p.1 fr.1, acc.2 ++ fr.2))
    ([], [])

/-- The dict returned by `CrossBorderCheck.run`. -/
def run (r : Runner) : List (String × List Nat) := (runFull r).1

/-- The warning messages `CrossBorderCheck.run` sends to `cmds.warning`. -/
def warningsOf (r : Runner) : List String := (runFull r).2

/-- The dynamic shape of the returned Python object: a dict. -/
def result (r : Runner) : CheckResult := .components (run r)

end MayaLint.CrossBorderCheck

namespace MayaLint.OnBorderCheck

/-- `TOLERANCE = 0.00001` (src/src/modelChecker/checks/on_border_check.py). -/
def TOLERANCE : ℚ := mkRat 1 100000

/-- `abs(int(Us[i]) - Us[i]) < TOLERANCE or abs(int(Vs[i]) - Vs[i]) < TOLERANCE`. -/
def pred (uv : ℚ × ℚ) : Bool :=
  decide (|(pyInt uv.1 : ℚ) - uv.1| < TOLERANCE) ||
    decide (|(pyInt uv.2 : ℚ) - uv.2| < TOLERANCE)

/-- `OnBorderCheck.run`: for each mesh, append to `on_border[uuid]` every UV
index within tolerance of an integer U or V line. -/
def run (r : Runner) : List (String × List Nat) :=
  r.get_mesh_iterator.foldl (fun d p => dictExtend d p.1 (flaggedIdx pred 0 p.2.meshUVs)) []

/-- The dynamic shape of the returned Python object: a dict. -/
def result (r : Runner) : CheckResult := .components (run r)

end MayaLint.OnBorderCheck

namespace MayaLint.OnGridCheck

/-- `TOLERENCE = 0.0001` (sic, src/src/modelChecker/checks/on_grid_check.py). -/
def TOLERENCE : ℚ := mkRat 1 10000

/-- `OnGridCheck.run`: root nodes whose world bounding box min-Y is further
than the tolerance from the grid. -/
def run (r : Runner) : List String :=
  r.get_maya_root_nodes.filter fun uuid =>
    decide (TOLERENCE < |r.bbox_min_y (r.get_name_from_uuid uuid)|)

/-- The dynamic shape of the returned Python object: a list. -/
def result (r : Runner) : CheckResult := .nodes (run r)

end MayaLint.OnGridCheck

namespace MayaLint.LayersCheck

/-- `LayersCheck.run`: nodes with a truthy `cmds.listConnections(name, type="displayLayer")`. -/
def run (r : Runner) : List String :=
  r.get_maya_nodes.filter fun node => r.has_display_layer (r.get_name_from_uuid node)

/-- The dynamic shape of the returned Python object: a list. -/
def result (r : Runner) : CheckResult := .nodes (run r)

end MayaLint.LayersCheck

namespace MayaLint.UncenteredPivots

/-- `UncenteredPivots.run`: nodes whose world-space rotate pivot differs from
`[0, 0, 0]`. -/
def run (r : Runner) : List String :=
  r.get_maya_nodes.filter fun node =>
    decide (r.xform_pivot (r.get_name_from_uuid node) ≠ [0, 0, 0])

/-- The dynamic shape of the returned Python object: a list. -/
def result (r : Runner) : CheckResult := .nodes (run r)

end MayaLint.UncenteredPivots

namespace MayaLint.UnfrozenTransformsCheck

/-- `UnfrozenTransformsCheck.run`: nodes whose world-space translation or
rotation differs from `[0, 0, 0]` or whose scale differs from `[1, 1, 1]`. -/
def run (r : Runner) : List String :=
  r.get_maya_nodes.filter fun node =>
    let nm := r.get_name_from_uuid node
    decide (r.xform_translation nm ≠ [0, 0, 0] ∨ r.xform_rotation nm ≠ [0, 0, 0] ∨
      r.xform_scale nm ≠ [1, 1, 1])

/-- The dynamic shape of the returned Python object: a list. -/
def result (r : Runner) : CheckResult := .nodes (run r)

end MayaLint.UnfrozenTransformsCheck

namespace MayaLint.DuplicatedNamesCheck

/-- Native-backend key: short name of the resolved node name, everything
after the last `'|'`. -/
def mayaKey (r : Runner) (uuid : String) : String :=
  shortName '|' (r.get_name_from_uuid uuid)

/-- `DuplicatedNamesCheck.run`: group node uuids by the short name of their
resolved name; every member of a group of size > 1 is invalid. -/
def run (r : Runner) : List String :=
  invalidOf (groupFold (mayaKey r) r.get_maya_nodes)

/-- Staged-backend key: everything after the last `'/'` of the prim path. -/
def usdKey (node : String) : String := shortName '/' node

/-- `DuplicatedNamesCheck.usd_run`: group prim paths by their short name;
every member of a group of size > 1 is invalid. -/
def usd_run (r : Runner) : List String :=
  invalidOf (groupFold usdKey r.get_usd_nodes)

/-- The dynamic shape of the returned Python object: a list. -/
def result (r : Runner) : CheckResult := .nodes (run r)

end MayaLint.DuplicatedNamesCheck

namespace MayaLint.NamespacesCheck

/-- `node_name and node_name[-1].isdigit()`: the name is non-empty and its
last character is a decimal digit. -/
def pred (nm : String) : Bool :=
  match nm.data.getLast? with
  | some c => c.isDigit
  | none => false

/-- `NamespacesCheck.run`: nodes whose resolved name is non-empty and ends in
a digit. -/
def run (r : Runner) : List String :=
  r.get_maya_nodes.filter fun node => pred (r.get_name_from_uuid node)

/-- The dynamic shape of the returned Python object: a list. -/
def result (r : Runner) : CheckResult := .nodes (run r)

end MayaLint.NamespacesCheck

namespace MayaLint

/-- The static class-body attributes a check class declares in its source
file. `none` records that the class body does not declare the attribute at
all (whatever defaults `ValidationCheckBase` might supply are not part of the
class's own static declaration). -/
structure CheckDecl where
  name : String
  label : String
  category : Option String
  node_type : Option NodeType
  data_type : Option DataType
  description : Option String
deriving DecidableEq

/-- src/src/modelChecker/checks/ngon_check.py, class body. -/
def ngonDecl : CheckDecl :=
  ⟨"ngons", "Ngons", some "Topology", some .FACE, none, none⟩

/-- src/src/modelChecker/checks/cross_border_check.py, class body. -/
def crossBorderDecl : CheckDecl :=
  ⟨"cross_border", "Cross Border", some "UVs", some .UV, none, none⟩

/-- src/src/modelChecker/checks/on_border_check.py, class body. -/
def onBorderDecl : CheckDecl :=
  ⟨"on_border", "On Border", some "UVs", some .UV, none, none⟩

/-- src/src/modelChecker/checks/on_grid_check.py, class body (the description
is the f-string rendered with `TOLERENCE = 0.0001`). -/
def onGridDecl : CheckDecl :=
  ⟨"on_grid", "On Grid", some "General", some .NODE, none,
    some "Root nodes that are further than 0.0001 from the grid will fail."⟩

/-- src/src/modelChecker/checks/layers_check.py, class body. -/
def layersDecl : CheckDecl :=
  ⟨"layers", "Layers", some "General", none, none, none⟩

/-- src/src/modelChecker/checks/uncentered_pivots.py, class body: only `name`
and `label` are declared. -/
def uncenteredPivotsDecl : CheckDecl :=
  ⟨"uncentered_pivots", "Uncentered Pivots", none, none, none, none⟩

/-- src/src/modelChecker/checks/unfrozen_transforms_check.py, class body: the
entity-kind-like attribute it declares is `data_type = DataType.Node`, not
`node_type`. -/
def unfrozenTransformsDecl : CheckDecl :=
  ⟨"unfrozen_transforms", "Unfrozen Transforms", some "General", none, some .Node, none⟩

/-- src/modelChecker/checks/duplicated_name_check.py, class body. -/
def duplicatedNamesDecl : CheckDecl :=
  ⟨"duplicated_names", "Duplicated Names", some "Naming", some .NODE, none, none⟩

/-- src/modelChecker/checks/namespaces_check.py, class body. -/
def namespacesDecl : CheckDecl :=
  ⟨"namespaces", "Namespaces", some "Naming", none, none, none⟩

/-- The static declarations of every check class whose source file is
provided. -/
def allCheckDecls : List CheckDecl :=
  [ngonDecl, crossBorderDecl, onBorderDecl, onGridDecl, layersDecl,
    uncenteredPivotsDecl, unfrozenTransformsDecl, duplicatedNamesDecl, namespacesDecl]

end MayaLint

namespace MayaLint.ProgressUI

/-- The state of one `QProgressBar`: its maximum and current value. -/
structure Bar where
  maximum : Int
  value : Int
deriving DecidableEq

/-- The state of the two progress bars of `ProgressUI`
(src/src/modelChecker/ui/progress_ui.py). -/
structure State where
  node_progress : Bar
  checks_progress : Bar
deriving DecidableEq

/-- `ProgressUI.update(data)`: when both `"nodes_total"` and `"current_node"`
are keys of `data`, set the node bar's maximum and value from them; when both
`"total_checks"` and `"current_check"` are keys, set the checks bar likewise.
Any other keys are ignored. -/
def update (st : State) (data : List (String × Int)) : State :=
  let st1 :=
    match alookup "nodes_total" data, alookup "current_node" data with
    | some t, some c => { st with node_progress := ⟨t, c⟩ }
    | _, _ => st
  match alookup "total_checks" data, alookup "current_check" data with
  | some t, some c => { st1 with checks_progress := ⟨t, c⟩ }
  | _, _ => st1

end MayaLint.ProgressUI

namespace MayaLint.ReportUI

/-- A Python value reachable inside the object handed to
`ReportUI.render_report`: the aggregate a runner would produce holds a map
from check name to check result, a map from check name to error string, and
an integer counter. -/
inductive PyValue where
  | resultMap : List (String × CheckResult) → PyValue
  | strMap : List (String × String) → PyValue
  | int : Int → PyValue
deriving DecidableEq

/-- `ReportUI.render_report(result_object, all_check_widgets)`
(src/modelChecker/ui/report_ui.py): reads `result_object['error_object']`
(raising `KeyError`, modelled as `none`, when that key is absent or does not
hold a name-to-result map), then walks the check widgets in order; for each
widget whose check's `name` is a key of `error_object` it appends
`check.render_html(error_object[name], verbosity_level, last_failed)`, and
after every widget sets `last_failed` to whether that widget's name was a
key. `renderHtml` stands for the external `check.render_html` method,
abstracted as a function of the check's name. -/
def render_report (renderHtml : String → CheckResult → Nat → Bool → String)
    (verbosity : Nat) (result_object : List (String × PyValue))
    (widget_names : List String) : Option String :=
  match alookup "error_object" result_object with
  | some (.resultMap error_object) =>
    some ((widget_names.foldl
      (fun (acc : String × Bool) nm =>
        match alookup nm error_object with
        | some res => (acc.1 ++ renderHtml nm res verbosity acc.2, true)
        | none => (acc.1, false))
      ("", false)).1)
  | _ => none

/-- Reference form of the widget loop: renders, in widget order, exactly the
widgets whose name is a key of `error_object`, threading the
previous-widget-failed flag. -/
def renderSpec (renderHtml : String → CheckResult → Nat → Bool → String)
    (verbosity : Nat) (error_object : List (String × CheckResult)) :
    List String → Bool → String
  | [], _ => ""
  | nm :: rest, lastFailed =>
    match alookup nm error_object with
    | some res =>
      renderHtml nm res verbosity lastFailed ++ renderSpec renderHtml verbosity error_object rest true
    | none => renderSpec renderHtml verbosity error_object rest false

end MayaLint.ReportUI

namespace MayaLint

/-- A check as registered: its static class declaration paired with its
embedded native-backend entry point. -/
structure CheckImpl where
  decl : CheckDecl
  native : Runner → CheckResult

/-- Every check whose source file is provided, with its native entry point. -/
def allChecks : List CheckImpl :=
  [⟨ngonDecl, NgonCheck.result⟩,
    ⟨crossBorderDecl, CrossBorderCheck.result⟩,
    ⟨onBorderDecl, OnBorderCheck.result⟩,
    ⟨onGridDecl, OnGridCheck.result⟩,
    ⟨layersDecl, LayersCheck.result⟩,
    ⟨uncenteredPivotsDecl, UncenteredPivots.result⟩,
    ⟨unfrozenTransformsDecl, UnfrozenTransformsCheck.result⟩,
    ⟨duplicatedNamesDecl, DuplicatedNamesCheck.result⟩,
    ⟨namespacesDecl, NamespacesCheck.result⟩]

/-- A runner whose scene queries all answer trivially; the enumeration fields
are filled per fixture below. -/
def baseRunner : Runner :=
  { get_maya_nodes := []
    get_maya_root_nodes := []
    get_usd_nodes := []
    get_usd_root_nodes := []
    get_mesh_iterator := []
    get_name_from_uuid := fun u => u
    has_display_layer := fun _ => false
    xform_pivot := fun _ => [0, 0, 0]
    xform_translation := fun _ => [0, 0, 0]
    xform_rotation := fun _ => [0, 0, 0]
    xform_scale := fun _ => [1, 1, 1]
    bbox_min_y := fun _ => 0 }

/-- An empty scene: every enumeration yields the empty sequence. -/
def emptyRunner : Runner := baseRunner

/-- Fixture for the n-gon scenario: one mesh `meshNgon` with a 5-edged, a
4-edged and a 3-edged face. -/
def meshNgon : Mesh :=
  ⟨[⟨[0, 1, 2, 3, 4], none⟩, ⟨[0, 1, 2, 3], none⟩, ⟨[0, 1, 2], none⟩], []⟩

/-- Runner enumerating the single mesh `meshNgon` under uuid `"mesh1"`. -/
def ngonRunner : Runner :=
  { baseRunner with get_mesh_iterator := [("mesh1", meshNgon)] }

/-- Fixture for the cross-border scenario: face 0 spans two U tiles, face 1
has no UVs, face 2 sits inside one tile. -/
def meshCross : Mesh :=
  ⟨[⟨[0, 1, 2], some [(mkRat 1 2, mkRat 1 2), (mkRat 3 2, mkRat 1 2)]⟩,
    ⟨[0, 1, 2], none⟩,
    ⟨[0, 1, 2], some [(mkRat 1 4, mkRat 1 4), (mkRat 1 2, mkRat 1 2)]⟩], []⟩

/-- Runner enumerating the single mesh `meshCross` under uuid `"mesh1"`. -/
def crossRunner : Runner :=
  { baseRunner with get_mesh_iterator := [("mesh1", meshCross)] }

/-- Runner for the duplicate-names counterexample: two nodes resolving to
`geo_cube1` and `geo_cube2`. -/
def suffixRunner : Runner :=
  { baseRunner with
      get_maya_nodes := ["u1", "u2"]
      get_name_from_uuid := fun u =>
        if u = "u1" then "geo_cube1" else if u = "u2" then "geo_cube2" else u }

/-- Runner for the amended duplicate-names scenario: `u1` and `u2` resolve to
paths with the same short name `geo_cube`; `u3` has a unique short name. -/
def dupRunner : Runner :=
  { baseRunner with
      get_maya_nodes := ["u1", "u2", "u3"]
      get_name_from_uuid := fun u =>
        if u = "u1" then "|grp|geo_cube"
        else if u = "u2" then "|grp2|geo_cube"
        else if u = "u3" then "|lone" else u }

/-- Runner for backend symmetry: a native scene and a staged scene with the
same hierarchy of short names (`'|'` vs `'/'` separators). -/
def symRunner : Runner :=
  { baseRunner with
      get_maya_nodes := ["u1", "u2", "u3"]
      get_usd_nodes := ["/grp/geo_cube", "/grp2/geo_cube", "/lone"]
      get_name_from_uuid := fun u =>
        if u = "u1" then "|grp|geo_cube"
        else if u = "u2" then "|grp2|geo_cube"
        else if u = "u3" then "|lone" else u }

/-- Runner for the namespaces scenario: `n1` resolves to a namespaced name
ending in a letter, `n2` to a plain name ending in a digit. -/
def nsRunner : Runner :=
  { baseRunner with
      get_maya_nodes := ["n1", "n2"]
      get_name_from_uuid := fun u =>
        if u = "n1" then "ns:geo_cube" else if u = "n2" then "node1" else u }

end MayaLint

namespace MayaLint.ProgressUI

/-- A concrete progress-widget state: both bars at maximum 0, value 0. -/
def st0 : State := ⟨⟨0, 0⟩, ⟨0, 0⟩⟩

end MayaLint.ProgressUI


namespace MayaLint

/-- Keys of an association list, in order. -/
def keysOf (d : List (String × β)) : List String := d.map Prod.fst

/-- Append to an optional group: `none` stays `none` only when nothing is
appended; used to state what one `defaultdict(list)` key holds after a fold. -/
def oappend (o : Option (List α)) (l : List α) : Option (List α) :=
  match o, l with
  | none, [] => none
  | o, l => some (o.getD [] ++ l)

theorem alookup_addToEntry (k s : String) (vs : List β) (d : List (String × List β)) :
    alookup s (addToEntry k vs d)
      = if s = k then some (((alookup k d).getD []) ++ vs) else alookup s d := by
  induction d with
  | nil =>
    by_cases h : s = k
    · subst h; simp [addToEntry, alookup]
    · simp [addToEntry, alookup, h, Ne.symm h]
  | cons hd tl ih =>
    obtain ⟨k', l⟩ := hd
    by_cases hk : k' = k
    · subst hk
      by_cases hs : s = k'
      · subst hs; simp [addToEntry, alookup]
      · simp [addToEntry, alookup, hs, Ne.symm hs]
    · by_cases hs : s = k'
      · subst hs
        simp [addToEntry, alookup, hk]
      · simp [addToEntry, alookup, hk, hs, Ne.symm hs, ih]

theorem alookup_eq_none (s : String) (d : List (String × β)) :
    alookup s d = none ↔ s ∉ keysOf d := by
  induction d with
  | nil => simp [alookup, keysOf]
  | cons hd tl ih =>
    obtain ⟨k, v⟩ := hd
    by_cases h : k = s
    · subst h; simp [alookup, keysOf]
    · simp [alookup, keysOf, h, Ne.symm h, ih]

theorem mem_of_alookup {s : String} {d : List (String × β)} {v : β}
    (h : alookup s d = some v) : (s, v) ∈ d := by
  induction d with
  | nil => simp [alookup] at h
  | cons hd tl ih =>
    obtain ⟨k, w⟩ := hd
    by_cases hk : k = s
    · subst hk
      simp [alookup] at h
      simp [h]
    · simp [alookup, hk] at h
      simp [ih h]

theorem alookup_of_mem_nodup {s : String} {d : List (String × β)} {v : β}
    (hnd : (keysOf d).Nodup) (h : (s, v) ∈ d) : alookup s d = some v := by
  induction d with
  | nil => simp at h
  | cons hd tl ih =>
    obtain ⟨k, w⟩ := hd
    simp only [keysOf, List.map_cons, List.nodup_cons] at hnd
    rcases List.mem_cons.mp h with h1 | h1
    · simp only [Prod.mk.injEq] at h1
      obtain ⟨rfl, rfl⟩ := h1
      simp [alookup]
    · have hk : k ≠ s := by
        rintro rfl
        exact hnd.1 (List.mem_map.mpr ⟨(k, v), h1, rfl⟩)
      simp [alookup, hk, ih hnd.2 h1]

theorem addToEntry_of_not_mem {k : String} (vs : List β) {d : List (String × List β)}
    (h : k ∉ keysOf d) : addToEntry k vs d = d ++ [(k, vs)] := by
  induction d with
  | nil => simp [addToEntry]
  | cons hd tl ih =>
    obtain ⟨k', l⟩ := hd
    simp only [keysOf, List.map_cons, List.mem_cons, not_or] at h
    have hne : k' ≠ k := fun h' => h.1 h'.symm
    simp [addToEntry, hne, ih (by simpa [keysOf] using h.2)]

theorem keysOf_append (d e : List (String × β)) :
    keysOf (d ++ e) = keysOf d ++ keysOf e := by
  simp [keysOf]

theorem mem_keysOf_addToEntry {a k : String} (vs : List β) (d : List (String × List β)) :
    a ∈ keysOf (addToEntry k vs d) ↔ a ∈ keysOf d ∨ a = k := by
  induction d with
  | nil => simp [addToEntry, keysOf]
  | cons hd tl ih =>
    obtain ⟨k', l⟩ := hd
    by_cases h : k' = k
    · subst h
      simp [addToEntry, keysOf]
      tauto
    · simp [addToEntry, keysOf, h] at ih ⊢
      rw [ih]
      tauto

theorem nodup_keysOf_addToEntry {k : String} (vs : List β) {d : List (String × List β)}
    (h : (keysOf d).Nodup) : (keysOf (addToEntry k vs d)).Nodup := by
  induction d with
  | nil => simp [addToEntry, keysOf]
  | cons hd tl ih =>
    obtain ⟨k', l⟩ := hd
    simp only [keysOf, List.map_cons, List.nodup_cons] at h
    by_cases h' : k' = k
    · subst h'
      simp only [addToEntry, eq_self_iff_true, if_true, keysOf, List.map_cons,
        List.nodup_cons]
      exact ⟨h.1, h.2⟩
    · simp only [addToEntry, if_neg h', keysOf, List.map_cons, List.nodup_cons]
      refine ⟨fun hmem => ?_, ih h.2⟩
      rcases (mem_keysOf_addToEntry (a := k') (k := k) vs tl).mp hmem with h2 | h2
      · exact h.1 h2
      · exact h' h2

end MayaLint

namespace MayaLint

theorem flaggedIdx_lower (pred : α → Bool) :
    ∀ (l : List α) (k i : Nat), i ∈ flaggedIdx pred k l → k ≤ i := by
  intro l
  induction l with
  | nil => intro k i h; simp [flaggedIdx] at h
  | cons a rest ih =>
    intro k i h
    simp only [flaggedIdx] at h
    by_cases hp : pred a
    · rw [if_pos hp] at h
      rcases List.mem_cons.mp h with rfl | h1
      · exact le_refl _
      · exact le_trans (Nat.le_succ _) (ih (k + 1) i h1)
    · rw [if_neg hp] at h
      exact le_trans (Nat.le_succ _) (ih (k + 1) i h)

theorem flaggedIdx_sorted (pred : α → Bool) :
    ∀ (l : List α) (k : Nat), (flaggedIdx pred k l).Sorted (· < ·) := by
  intro l
  induction l with
  | nil => intro k; simp [flaggedIdx]
  | cons a rest ih =>
    intro k
    simp only [flaggedIdx]
    by_cases hp : pred a
    · rw [if_pos hp]
      refine List.sorted_cons.mpr ⟨fun b hb => ?_, ih (k + 1)⟩
      exact lt_of_lt_of_le (Nat.lt_succ_self k) (flaggedIdx_lower pred rest (k + 1) b hb)
    · rw [if_neg hp]
      exact ih (k + 1)

theorem flaggedIdx_mem (pred : α → Bool) :
    ∀ (l : List α) (k i : Nat),
      i ∈ flaggedIdx pred k l ↔ ∃ j, ∃ h : j < l.length, i = k + j ∧ pred (l.get ⟨j, h⟩) := by
  intro l
  induction l with
  | nil => intro k i; simp [flaggedIdx]
  | cons a rest ih =>
    intro k i
    simp only [flaggedIdx]
    constructor
    · intro h
      by_cases hp : pred a
      · rw [if_pos hp] at h
        rcases List.mem_cons.mp h with rfl | h1
        · exact ⟨0, by simp, by simp, by simpa using hp⟩
        · obtain ⟨j, hj, rfl, hpj⟩ := (ih (k + 1) i).mp h1
          exact ⟨j + 1, by simpa using Nat.succ_lt_succ hj, by omega, by simpa using hpj⟩
      · rw [if_neg hp] at h
        obtain ⟨j, hj, rfl, hpj⟩ := (ih (k + 1) i).mp h
        exact ⟨j + 1, by simpa using Nat.succ_lt_succ hj, by omega, by simpa using hpj⟩
    · rintro ⟨j, hj, rfl, hpj⟩
      cases j with
      | zero =>
        simp only [List.get] at hpj
        simp [if_pos hpj]
      | succ j' =>
        have h1 : k + (j' + 1) ∈ flaggedIdx pred (k + 1) rest := by
          refine (ih (k + 1) (k + (j' + 1))).mpr
            ⟨j', by simpa using Nat.lt_of_succ_lt_succ hj, by omega, ?_⟩
          simpa using hpj
        by_cases hp : pred a
        · rw [if_pos hp]; exact List.mem_cons_of_mem _ h1
        · rw [if_neg hp]; exact h1

end MayaLint

namespace MayaLint

theorem dictExtend_ne_nil {vs : List β} (d : List (String × List β)) (k : String)
    (h : vs ≠ []) : dictExtend d k vs = addToEntry k vs d := by
  cases vs with
  | nil => exact absurd rfl h
  | cons a l => rfl

theorem foldl_dictExtend (f : α → List Nat) (key : α → String) :
    ∀ (ms : List α) (d0 : List (String × List Nat)),
      (∀ x ∈ ms, key x ∉ keysOf d0) → (ms.map key).Nodup →
      ms.foldl (fun d p => dictExtend d (key p) (f p)) d0
        = d0 ++ ms.filterMap (fun p => if f p = [] then none else some (key p, f p)) := by
  intro ms
  induction ms with
  | nil => intro d0 _ _; simp
  | cons x rest ih =>
    intro d0 hfresh hnd
    simp only [List.map_cons, List.nodup_cons] at hnd
    have hx : key x ∉ keysOf d0 := hfresh x (List.mem_cons_self x rest)
    by_cases hfx : f x = []
    · have hd : dictExtend d0 (key x) (f x) = d0 := by simp [dictExtend, hfx]
      simp only [List.foldl_cons, hd, List.filterMap_cons, hfx, if_pos rfl]
      exact ih d0 (fun y hy => hfresh y (List.mem_cons_of_mem x hy)) hnd.2
    · have hadd : addToEntry (key x) (f x) d0 = d0 ++ [(key x, f x)] :=
        addToEntry_of_not_mem (f x) hx
      have hd : dictExtend d0 (key x) (f x) = d0 ++ [(key x, f x)] :=
        (dictExtend_ne_nil d0 (key x) hfx).trans hadd
      simp only [List.foldl_cons, hd, List.filterMap_cons, if_neg hfx]
      rw [ih (d0 ++ [(key x, f x)]) ?_ hnd.2]
      · simp
      · intro y hy
        rw [keysOf_append]
        simp only [List.mem_append, not_or]
        refine ⟨hfresh y (List.mem_cons_of_mem x hy), ?_⟩
        have : key y ∈ List.map key rest := List.mem_map.mpr ⟨y, hy, rfl⟩
        simp only [keysOf, List.map_cons, List.map_nil, List.mem_singleton]
        rintro h
        exact hnd.1 (h ▸ this)

end MayaLint

namespace MayaLint

theorem keysOf_filterMapDict (f : α → List Nat) (key : α → String) (ms : List α) :
    (keysOf (ms.filterMap (fun p => if f p = [] then none else some (key p, f p)))).Sublist
      (ms.map key) := by
  induction ms with
  | nil => simp [keysOf]
  | cons x rest ih =>
    by_cases hfx : f x = []
    · simp only [List.filterMap_cons, hfx, if_pos rfl, List.map_cons]
      exact ih.trans (List.sublist_cons_self _ _)
    · simp only [List.filterMap_cons, if_neg hfx, keysOf, List.map_cons]
      exact List.Sublist.cons₂ _ ih

theorem mem_keysOf_filterMapDict (f : α → List Nat) (key : α → String) (ms : List α)
    (a : String) :
    a ∈ keysOf (ms.filterMap (fun p => if f p = [] then none else some (key p, f p)))
      ↔ ∃ y ∈ ms, key y = a ∧ f y ≠ [] := by
  simp only [keysOf, List.mem_map, List.mem_filterMap]
  constructor
  · rintro ⟨g, ⟨y, hy, hg⟩, rfl⟩
    by_cases hfy : f y = []
    · simp [hfy] at hg
    · refine ⟨y, hy, ?_, hfy⟩
      simp only [if_neg hfy, Option.some.injEq] at hg
      rw [← hg]
  · rintro ⟨y, hy, rfl, hfy⟩
    exact ⟨(key y, f y), ⟨y, hy, by simp [hfy]⟩, rfl⟩

theorem mem_filterMapDict (f : α → List Nat) (key : α → String) (ms : List α)
    (g : String × List Nat) :
    g ∈ ms.filterMap (fun p => if f p = [] then none else some (key p, f p))
      ↔ ∃ y ∈ ms, f y ≠ [] ∧ g = (key y, f y) := by
  simp only [List.mem_filterMap]
  constructor
  · rintro ⟨y, hy, hg⟩
    by_cases hfy : f y = []
    · simp [hfy] at hg
    · simp only [if_neg hfy, Option.some.injEq] at hg
      exact ⟨y, hy, hfy, hg.symm⟩
  · rintro ⟨y, hy, hfy, rfl⟩
    exact ⟨y, hy, by simp [hfy]⟩

theorem dictExtendFold_entry (f : α → List Nat) (key : α → String) (ms : List α)
    (g : String × List Nat)
    (hg : g ∈ ms.foldl (fun d p => dictExtend d (key p) (f p)) [])
    (hnd : (ms.map key).Nodup) :
    ∃ y ∈ ms, f y ≠ [] ∧ g = (key y, f y) := by
  rw [foldl_dictExtend f key ms [] (by simp [keysOf]) hnd] at hg
  simpa using (mem_filterMapDict f key ms g).mp (by simpa using hg)

theorem dictExtendFold_lookup (f : α → List Nat) (key : α → String) (ms : List α)
    (hnd : (ms.map key).Nodup) (x : α) (hx : x ∈ ms) :
    alookup (key x) (ms.foldl (fun d p => dictExtend d (key p) (f p)) [])
      = if f x = [] then none else some (f x) := by
  rw [foldl_dictExtend f key ms [] (by simp [keysOf]) hnd, List.nil_append]
  by_cases hfx : f x = []
  · rw [if_pos hfx, alookup_eq_none]
    intro hmem
    obtain ⟨y, hy, hkey, hfy⟩ := (mem_keysOf_filterMapDict f key ms (key x)).mp hmem
    have : y = x := List.inj_on_of_nodup_map hnd hy hx hkey
    exact hfy (this ▸ hfx)
  · rw [if_neg hfx]
    refine alookup_of_mem_nodup ((keysOf_filterMapDict f key ms).nodup hnd) ?_
    exact (mem_filterMapDict f key ms (key x, f x)).mpr ⟨x, hx, hfx, rfl⟩

theorem dictExtendFold_lookup_getD (f : α → List Nat) (key : α → String) (ms : List α)
    (hnd : (ms.map key).Nodup) (x : α) (hx : x ∈ ms) :
    (alookup (key x) (ms.foldl (fun d p => dictExtend d (key p) (f p)) [])).getD []
      = f x := by
  rw [dictExtendFold_lookup f key ms hnd x hx]
  by_cases hfx : f x = []
  · simp [hfx]
  · simp [hfx]

end MayaLint

namespace MayaLint

theorem oappend_cons (o : Option (List α)) (a : α) (l : List α) :
    oappend o (a :: l) = some (o.getD [] ++ a :: l) := by
  cases o <;> rfl

theorem oappend_some (v l : List α) : oappend (some v) l = some (v ++ l) := by
  cases l <;> simp [oappend]

theorem groupFoldAux_lookup (keyOf : α → String) :
    ∀ (xs : List α) (d0 : List (String × List α)) (s : String),
      alookup s (xs.foldl (fun d x => addToEntry (keyOf x) [x] d) d0)
        = oappend (alookup s d0) (xs.filter (fun x => decide (keyOf x = s))) := by
  intro xs
  induction xs with
  | nil =>
    intro d0 s
    simp only [List.foldl_nil, List.filter_nil]
    cases alookup s d0 with
    | none => rfl
    | some v => simp [oappend]
  | cons x rest ih =>
    intro d0 s
    simp only [List.foldl_cons, List.filter_cons]
    rw [ih, alookup_addToEntry]
    by_cases hs : s = keyOf x
    · rw [if_pos hs, if_pos (by simp [hs])]
      subst hs
      rw [oappend_some, oappend_cons]
      simp
    · rw [if_neg hs, if_neg (by simpa using fun h : keyOf x = s => hs h.symm)]

theorem groupFold_lookup (keyOf : α → String) (xs : List α) (s : String) :
    alookup s (groupFold keyOf xs)
      = oappend none (xs.filter (fun x => decide (keyOf x = s))) := by
  rw [groupFold, groupFoldAux_lookup keyOf xs [] s]
  rfl

theorem groupFold_keys_nodup (keyOf : α → String) (xs : List α) :
    (keysOf (groupFold keyOf xs)).Nodup := by
  rw [groupFold]
  suffices h : ∀ (d0 : List (String × List α)), (keysOf d0).Nodup →
      (keysOf (xs.foldl (fun d x => addToEntry (keyOf x) [x] d) d0)).Nodup from
    h [] (by simp [keysOf])
  induction xs with
  | nil => intro d0 h; simpa using h
  | cons x rest ih =>
    intro d0 h
    simp only [List.foldl_cons]
    exact ih _ (nodup_keysOf_addToEntry [x] h)

theorem groupFold_entry (keyOf : α → String) (xs : List α) (g : String × List α)
    (hg : g ∈ groupFold keyOf xs) :
    g.2 = xs.filter (fun x => decide (keyOf x = g.1)) ∧ g.2 ≠ [] := by
  have hl : alookup g.1 (groupFold keyOf xs) = some g.2 :=
    alookup_of_mem_nodup (groupFold_keys_nodup keyOf xs) (by simpa using hg)
  rw [groupFold_lookup] at hl
  cases hf : xs.filter (fun x => decide (keyOf x = g.1)) with
  | nil => rw [hf] at hl; simp [oappend] at hl
  | cons a l =>
    rw [hf, oappend_cons] at hl
    simp only [Option.getD_none, List.nil_append, Option.some.injEq] at hl
    exact ⟨hl.symm, by rw [← hl]; simp⟩

theorem mem_invalidOf (groups : List (String × List α)) (u : α) :
    u ∈ invalidOf groups ↔ ∃ g ∈ groups, 1 < g.2.length ∧ u ∈ g.2 := by
  simp only [invalidOf, List.mem_flatMap, List.mem_filter, decide_eq_true_eq]
  constructor
  · rintro ⟨g, ⟨hg, hlen⟩, hu⟩
    exact ⟨g, hg, hlen, hu⟩
  · rintro ⟨g, hg, hlen, hu⟩
    exact ⟨g, ⟨hg, hlen⟩, hu⟩

theorem mem_groupFold_invalid (keyOf : α → String) (xs : List α) (u : α) :
    u ∈ invalidOf (groupFold keyOf xs)
      ↔ u ∈ xs ∧ 1 < xs.countP (fun v => decide (keyOf v = keyOf u)) := by
  rw [mem_invalidOf]
  constructor
  · rintro ⟨g, hg, hlen, hu⟩
    obtain ⟨hval, _⟩ := groupFold_entry keyOf xs g hg
    rw [hval] at hu hlen
    have hkey : keyOf u = g.1 := by simpa using (List.mem_filter.mp hu).2
    refine ⟨(List.mem_filter.mp hu).1, ?_⟩
    rw [List.countP_eq_length_filter]
    simpa [hkey] using hlen
  · rintro ⟨humem, hcount⟩
    have hufil : u ∈ xs.filter (fun v => decide (keyOf v = keyOf u)) :=
      List.mem_filter.mpr ⟨humem, by simp⟩
    have hlen : 1 < (xs.filter (fun v => decide (keyOf v = keyOf u))).length := by
      rwa [List.countP_eq_length_filter] at hcount
    have halo : alookup (keyOf u) (groupFold keyOf xs)
        = some (xs.filter (fun v => decide (keyOf v = keyOf u))) := by
      rw [groupFold_lookup]
      cases hf : xs.filter (fun v => decide (keyOf v = keyOf u)) with
      | nil => rw [hf] at hufil; simp at hufil
      | cons a l => rw [oappend_cons]; simp
    exact ⟨(keyOf u, xs.filter (fun v => decide (keyOf v = keyOf u))),
      mem_of_alookup halo, hlen, hufil⟩

end MayaLint

namespace MayaLint.CrossBorderCheck

theorem faceLoop_fst : ∀ (fs : List Face) (k : Nat),
    (faceLoop k fs).1 = flaggedIdx cbPred k fs := by
  intro fs
  induction fs with
  | nil => intro k; rfl
  | cons f rest ih =>
    intro k
    cases huv : f.uvs with
    | some uvs =>
      simp only [faceLoop, huv, flaggedIdx, cbPred]
      by_cases hp : facePred uvs
      · simp [hp, ih]
      · simp [hp, ih]
    | none =>
      simp only [faceLoop, huv, flaggedIdx, cbPred]
      simp [ih]

theorem faceLoop_snd : ∀ (fs : List Face) (k : Nat),
    (faceLoop k fs).2 = (flaggedIdx (fun f => f.uvs.isNone) k fs).map warnMsg := by
  intro fs
  induction fs with
  | nil => intro k; rfl
  | cons f rest ih =>
    intro k
    cases huv : f.uvs with
    | some uvs =>
      simp only [faceLoop, huv, flaggedIdx, Option.isNone_some]
      by_cases hp : facePred uvs
      · simp [hp, ih]
      · simp [hp, ih]
    | none =>
      simp only [faceLoop, huv, flaggedIdx, Option.isNone_none, if_pos rfl, List.map_cons]
      simp [ih, warnMsg]

theorem runFull_eq (r : Runner) :
    runFull r
      = (r.get_mesh_iterator.foldl
          (fun d p => dictExtend d p.1 (faceLoop 0 p.2.faces).1) [],
         r.get_mesh_iterator.foldl
          (fun w p => w ++ (faceLoop 0 p.2.faces).2) []) := by
  rw [runFull]
  suffices h : ∀ (ms : List (String × Mesh)) (d : List (String × List Nat)) (w : List String),
      ms.foldl (fun acc p =>
        let fr := faceLoop 0 p.2.faces
        (dictExtend acc.1 p.1 fr.1, acc.2 ++ fr.2)) (d, w)
        = (ms.foldl (fun d p => dictExtend d p.1 (faceLoop 0 p.2.faces).1) d,
           ms.foldl (fun w p => w ++ (faceLoop 0 p.2.faces).2) w) from h _ [] []
  intro ms
  induction ms with
  | nil => intro d w; rfl
  | cons p rest ih =>
    intro d w
    simp only [List.foldl_cons]
    exact ih _ _

end MayaLint.CrossBorderCheck

namespace MayaLint

theorem foldl_append_eq_flatMap (h : α → List γ) :
    ∀ (l : List α) (w : List γ),
      l.foldl (fun acc x => acc ++ h x) w = w ++ l.flatMap h := by
  intro l
  induction l with
  | nil => intro w; simp
  | cons x rest ih =>
    intro w
    simp only [List.foldl_cons, List.flatMap_cons, ih, List.append_assoc]

end MayaLint

namespace MayaLint

theorem sortedEntries_of_flagged (f : α → List Nat) (key : α → String)
    (ms : List α) (hnd : (ms.map key).Nodup)
    (hsorted : ∀ x ∈ ms, (f x).Sorted (· < ·)) :
    ∀ e ∈ ms.foldl (fun d p => dictExtend d (key p) (f p)) [],
      e.2.Sorted (· < ·) ∧ e.2.Nodup := by
  intro e he
  obtain ⟨y, hy, _, rfl⟩ := dictExtendFold_entry f key ms e he hnd
  exact ⟨hsorted y hy, (hsorted y hy).nodup⟩

/-- C9: the claim that every check statically declares `name`, `label`,
`category` and a `node_type : NodeType` fails: `UncenteredPivots` declares
neither `category` nor `node_type`. -/
theorem claim_C9_counterexample :
    ¬ (∀ c ∈ allCheckDecls, c.category.isSome = true ∧ c.node_type.isSome = true) := by
  decide

/-- C9 (amended): every check class statically declares a non-empty `name`
and `label`; only `NgonCheck`, `CrossBorderCheck`, `OnBorderCheck`,
`OnGridCheck` and `DuplicatedNamesCheck` declare the entity-kind attribute
`node_type` (a static `NodeType` value); `UncenteredPivots` declares neither
`category` nor `node_type`, and `UnfrozenTransformsCheck` declares
`data_type = DataType.Node` instead of `node_type`. -/
theorem claim_C9_static_declarations :
    (∀ c ∈ allCheckDecls, c.name ≠ "" ∧ c.label ≠ "") ∧
    (allCheckDecls.filter (fun c => c.node_type.isSome)).map (fun c => c.name)
      = ["ngons", "cross_border", "on_border", "on_grid", "duplicated_names"] ∧
    uncenteredPivotsDecl.category = none ∧ uncenteredPivotsDecl.node_type = none ∧
    unfrozenTransformsDecl.node_type = none ∧
    unfrozenTransformsDecl.data_type = some DataType.Node ∧
    ngonDecl.node_type = some NodeType.FACE ∧
    duplicatedNamesDecl.node_type = some NodeType.NODE := by
  decide

/-- C8: a payload carrying exactly the keys `checks_total` and `checks_done`
does not update the progress widget: `ProgressUI.update` reads the keys
`total_checks`/`current_check` (and `nodes_total`/`current_node`), so the
state is unchanged. -/
theorem claim_C8_counterexample :
    ProgressUI.update ProgressUI.st0 [("checks_total", 10), ("checks_done", 3)]
        = ProgressUI.st0
      ∧ ProgressUI.st0.checks_progress ≠ ⟨10, 3⟩ := by
  exact ⟨rfl, by decide⟩

/-- C8 (amended): the progress consumer updates the checks bar for payloads
carrying both `total_checks` and `current_check`, the node bar for payloads
carrying both `nodes_total` and `current_node`, and ignores a payload carrying
`checks_total`/`checks_done`. -/
theorem claim_C8_progress_keys (st : ProgressUI.State) (t c : Int) :
    ProgressUI.update st [("total_checks", t), ("current_check", c)]
        = { st with checks_progress := ⟨t, c⟩ }
      ∧ ProgressUI.update st [("nodes_total", t), ("current_node", c)]
        = { st with node_progress := ⟨t, c⟩ }
      ∧ ProgressUI.update st [("checks_total", t), ("checks_done", c)] = st := by
  exact ⟨rfl, rfl, rfl⟩

/-- C2: the renderer does not consume a mapping with keys
`results`/`errors`/`entities_considered`: fed exactly that shape,
`render_report` hits a `KeyError` on `result_object['error_object']`
(modelled as `none`) instead of rendering the check present in `results`. -/
theorem claim_C2_counterexample :
    ReportUI.render_report (fun nm _ _ _ => nm) 0
      [("results", ReportUI.PyValue.resultMap [("ngons", CheckResult.components [])]),
        ("errors", ReportUI.PyValue.strMap []),
        ("entities_considered", ReportUI.PyValue.int 1)]
      ["ngons"] = none := rfl

/-- C2 (amended): the renderer consumes a mapping holding the key
`error_object` (a map from check name to CheckResult); it walks the check
widgets in order and renders, through each check's own `render_html`, exactly
the widgets whose check name is a key of that map, threading the
previous-widget-failed flag. -/
theorem claim_C2_render_error_object
    (renderHtml : String → CheckResult → Nat → Bool → String) (v : Nat)
    (ro : List (String × ReportUI.PyValue)) (eo : List (String × CheckResult))
    (ws : List String)
    (h : alookup "error_object" ro = some (ReportUI.PyValue.resultMap eo)) :
    ReportUI.render_report renderHtml v ro ws
      = some (ReportUI.renderSpec renderHtml v eo ws false) := by
  suffices haux : ∀ (ws : List String) (acc : String) (lf : Bool),
      (ws.foldl (fun (acc : String × Bool) nm =>
        match alookup nm eo with
        | some res => (acc.1 ++ renderHtml nm res v acc.2, true)
        | none => (acc.1, false)) (acc, lf)).1
        = acc ++ ReportUI.renderSpec renderHtml v eo ws lf by
    simp only [ReportUI.render_report, h]
    rw [haux ws "" false]
    simp
  intro ws
  induction ws with
  | nil => intro acc lf; simp [ReportUI.renderSpec]
  | cons nm rest ih =>
    intro acc lf
    simp only [List.foldl_cons]
    cases halo : alookup nm eo with
    | some res =>
      simp only [halo, ReportUI.renderSpec]
      rw [ih, String.append_assoc]
    | none =>
      simp only [halo, ReportUI.renderSpec]
      rw [ih]

theorem claim_C2_render_error_object_witness :
    ReportUI.render_report (fun nm _ _ _ => nm ++ ";") 0
        [("error_object", ReportUI.PyValue.resultMap
          [("ngons", CheckResult.components [("m", [0])])])]
        ["ngons", "layers"]
      = some (ReportUI.renderSpec (fun nm _ _ _ => nm ++ ";") 0
          [("ngons", CheckResult.components [("m", [0])])] ["ngons", "layers"] false) :=
  claim_C2_render_error_object (fun nm _ _ _ => nm ++ ";") 0 _ _ _ rfl

/-- C10: `NamespacesCheck.run` flags exactly the enumerated nodes whose
resolved name is non-empty with a decimal-digit last character; the namespace
separator plays no role. -/
theorem claim_C10_namespaces_membership (r : Runner) (u : String) :
    u ∈ NamespacesCheck.run r
      ↔ u ∈ r.get_maya_nodes ∧
        ∃ c, (r.get_name_from_uuid u).data.getLast? = some c ∧ c.isDigit = true := by
  simp only [NamespacesCheck.run, List.mem_filter]
  constructor
  · rintro ⟨hmem, hpred⟩
    refine ⟨hmem, ?_⟩
    unfold NamespacesCheck.pred at hpred
    cases hl : (r.get_name_from_uuid u).data.getLast? with
    | none => rw [hl] at hpred; simp at hpred
    | some c => rw [hl] at hpred; exact ⟨c, rfl, hpred⟩
  · rintro ⟨hmem, c, hl, hdig⟩
    refine ⟨hmem, ?_⟩
    unfold NamespacesCheck.pred
    rw [hl]
    exact hdig

end MayaLint

namespace MayaLint

/-- C4: two entities named `geo_cube1` and `geo_cube2` do NOT both appear in
the duplicate-name result: the check's short name strips only `'|'` path
components and never ignores a numeric suffix, so the two names stay
distinct and the result is empty. -/
theorem claim_C4_counterexample :
    ¬ ("u1" ∈ DuplicatedNamesCheck.run suffixRunner
        ∧ "u2" ∈ DuplicatedNamesCheck.run suffixRunner) := by
  decide

/-- C4 (amended): an enumerated entity appears in the duplicate-name result
exactly when more than one enumerated node carries the same short name (the
resolved name after its last `'|'`); hence entities whose resolved names agree
on the short name all appear, an entity with a unique short name never
appears, and `geo_cube1`/`geo_cube2` (distinct short names, the numeric
suffix not being ignored) do not collide. -/
theorem claim_C4_short_name_membership (r : Runner) (u : String)
    (hu : u ∈ r.get_maya_nodes) :
    u ∈ DuplicatedNamesCheck.run r
      ↔ 1 < r.get_maya_nodes.countP
          (fun v => decide (DuplicatedNamesCheck.mayaKey r v
            = DuplicatedNamesCheck.mayaKey r u)) := by
  rw [DuplicatedNamesCheck.run, mem_groupFold_invalid]
  simp [hu]

theorem claim_C4_short_name_membership_witness :
    ("u1" ∈ DuplicatedNamesCheck.run dupRunner)
      ∧ ("u3" ∉ DuplicatedNamesCheck.run dupRunner) := by
  constructor
  · exact (claim_C4_short_name_membership dupRunner "u1" (by decide)).mpr (by decide)
  · intro hmem
    exact absurd ((claim_C4_short_name_membership dupRunner "u3" (by decide)).mp hmem)
      (by decide)

/-- C5: on an empty scene (empty node, root-node, staged-node and mesh
enumerations) every check returns an empty result — an empty list for the
node-shaped checks, an empty dict for the component-shaped ones — and the
cross-border check emits no warnings. -/
theorem claim_C5_empty_scene (r : Runner)
    (h1 : r.get_maya_nodes = []) (h2 : r.get_maya_root_nodes = [])
    (h3 : r.get_usd_nodes = []) (h4 : r.get_mesh_iterator = []) :
    NgonCheck.run r = [] ∧ CrossBorderCheck.run r = []
      ∧ CrossBorderCheck.warningsOf r = [] ∧ OnBorderCheck.run r = []
      ∧ OnGridCheck.run r = [] ∧ LayersCheck.run r = []
      ∧ UncenteredPivots.run r = [] ∧ UnfrozenTransformsCheck.run r = []
      ∧ DuplicatedNamesCheck.run r = [] ∧ DuplicatedNamesCheck.usd_run r = []
      ∧ NamespacesCheck.run r = [] := by
  refine ⟨?_, ?_, ?_, ?_, ?_, ?_, ?_, ?_, ?_, ?_, ?_⟩ <;>
    simp [NgonCheck.run, CrossBorderCheck.run, CrossBorderCheck.warningsOf,
      CrossBorderCheck.runFull, OnBorderCheck.run, OnGridCheck.run, LayersCheck.run,
      UncenteredPivots.run, UnfrozenTransformsCheck.run, DuplicatedNamesCheck.run,
      DuplicatedNamesCheck.usd_run, NamespacesCheck.run, groupFold, invalidOf,
      h1, h2, h3, h4]

theorem claim_C5_empty_scene_witness :
    NgonCheck.run emptyRunner = [] ∧ CrossBorderCheck.run emptyRunner = []
      ∧ CrossBorderCheck.warningsOf emptyRunner = []
      ∧ OnBorderCheck.run emptyRunner = [] ∧ OnGridCheck.run emptyRunner = []
      ∧ LayersCheck.run emptyRunner = [] ∧ UncenteredPivots.run emptyRunner = []
      ∧ UnfrozenTransformsCheck.run emptyRunner = []
      ∧ DuplicatedNamesCheck.run emptyRunner = []
      ∧ DuplicatedNamesCheck.usd_run emptyRunner = []
      ∧ NamespacesCheck.run emptyRunner = [] :=
  claim_C5_empty_scene emptyRunner rfl rfl rfl rfl

/-- C7: backend symmetry of the duplicated-names check: when the native and
staged scenes are structurally equivalent — the i-th native node's short name
(resolved name after the last `'|'`) equals the i-th staged prim's short name
(path after the last `'/'`) — the i-th native node is flagged by `run` exactly
when the i-th staged prim is flagged by `usd_run`. -/
theorem claim_C7_backend_symmetry (r : Runner)
    (hshort : r.get_maya_nodes.map (DuplicatedNamesCheck.mayaKey r)
        = r.get_usd_nodes.map DuplicatedNamesCheck.usdKey)
    (i : Nat) (hi : i < r.get_maya_nodes.length) (hi' : i < r.get_usd_nodes.length) :
    r.get_maya_nodes.get ⟨i, hi⟩ ∈ DuplicatedNamesCheck.run r
      ↔ r.get_usd_nodes.get ⟨i, hi'⟩ ∈ DuplicatedNamesCheck.usd_run r := by
  rw [DuplicatedNamesCheck.run, DuplicatedNamesCheck.usd_run,
    mem_groupFold_invalid, mem_groupFold_invalid]
  have hmem1 : r.get_maya_nodes.get ⟨i, hi⟩ ∈ r.get_maya_nodes := List.get_mem _ _ _
  have hmem2 : r.get_usd_nodes.get ⟨i, hi'⟩ ∈ r.get_usd_nodes := List.get_mem _ _ _
  have hkey : DuplicatedNamesCheck.mayaKey r (r.get_maya_nodes.get ⟨i, hi⟩)
      = DuplicatedNamesCheck.usdKey (r.get_usd_nodes.get ⟨i, hi'⟩) := by
    have hq := congrArg (fun l => l.get? i) hshort
    simp only [List.get?_eq_getElem?, List.getElem?_map] at hq
    rw [List.getElem?_eq_getElem hi, List.getElem?_eq_getElem hi'] at hq
    simpa [List.get_eq_getElem] using hq
  have hcount : r.get_maya_nodes.countP
        (fun v => decide (DuplicatedNamesCheck.mayaKey r v
          = DuplicatedNamesCheck.mayaKey r (r.get_maya_nodes.get ⟨i, hi⟩)))
      = r.get_usd_nodes.countP
        (fun v => decide (DuplicatedNamesCheck.usdKey v
          = DuplicatedNamesCheck.usdKey (r.get_usd_nodes.get ⟨i, hi'⟩))) := by
    rw [hkey]
    have e1 := List.countP_map
      (fun t => decide (t = DuplicatedNamesCheck.usdKey (r.get_usd_nodes.get ⟨i, hi'⟩)))
      (DuplicatedNamesCheck.mayaKey r) r.get_maya_nodes
    have e2 := List.countP_map
      (fun t => decide (t = DuplicatedNamesCheck.usdKey (r.get_usd_nodes.get ⟨i, hi'⟩)))
      DuplicatedNamesCheck.usdKey r.get_usd_nodes
    rw [hshort] at e1
    exact e1.symm.trans e2
  rw [hcount]
  simp [hmem1, hmem2]

theorem claim_C7_backend_symmetry_witness :
    ("u1" ∈ DuplicatedNamesCheck.run symRunner)
      ∧ ("/grp/geo_cube" ∈ DuplicatedNamesCheck.usd_run symRunner) := by
  refine ⟨by decide, ?_⟩
  exact (claim_C7_backend_symmetry symRunner (by decide) 0 (by decide) (by decide)).mp
    (by decide)

end MayaLint

namespace MayaLint

/-- C3: provided each mesh entity is enumerated once (distinct uuids), a face
index appears under its owning entity's uuid in the n-gon dict exactly when
that face has more than 4 edges. -/
theorem claim_C3_ngon_detection (r : Runner)
    (hkeys : (r.get_mesh_iterator.map Prod.fst).Nodup)
    (u : String) (m : Mesh) (hm : (u, m) ∈ r.get_mesh_iterator) (i : Nat) :
    i ∈ (alookup u (NgonCheck.run r)).getD []
      ↔ ∃ h : i < m.faces.length, 4 < (m.faces.get ⟨i, h⟩).edges.length := by
  have hl := dictExtendFold_lookup_getD
    (fun p : String × Mesh => flaggedIdx NgonCheck.pred 0 p.2.faces)
    Prod.fst r.get_mesh_iterator hkeys (u, m) hm
  have hrw : (alookup u (NgonCheck.run r)).getD []
      = flaggedIdx NgonCheck.pred 0 m.faces := hl
  rw [hrw, flaggedIdx_mem]
  constructor
  · rintro ⟨j, hj, rfl, hp⟩
    exact ⟨by simpa using hj, by simpa [NgonCheck.pred] using hp⟩
  · rintro ⟨h, hlt⟩
    exact ⟨i, h, (Nat.zero_add i).symm, by simpa [NgonCheck.pred] using hlt⟩

theorem claim_C3_ngon_detection_witness :
    (0 ∈ (alookup "mesh1" (NgonCheck.run ngonRunner)).getD [])
      ∧ (1 ∉ (alookup "mesh1" (NgonCheck.run ngonRunner)).getD [])
      ∧ (2 ∉ (alookup "mesh1" (NgonCheck.run ngonRunner)).getD []) := by
  refine ⟨?_, ?_, ?_⟩
  · exact (claim_C3_ngon_detection ngonRunner (by decide) "mesh1" meshNgon (by decide) 0).mpr
      ⟨by decide, by decide⟩
  · intro hmem
    obtain ⟨h, hlt⟩ :=
      (claim_C3_ngon_detection ngonRunner (by decide) "mesh1" meshNgon (by decide) 1).mp hmem
    have he : (meshNgon.faces.get ⟨1, h⟩).edges.length = 4 := rfl
    omega
  · intro hmem
    obtain ⟨h, hlt⟩ :=
      (claim_C3_ngon_detection ngonRunner (by decide) "mesh1" meshNgon (by decide) 2).mp hmem
    have he : (meshNgon.faces.get ⟨2, h⟩).edges.length = 3 := rfl
    omega

/-- C6: the cross-border check recovers per face: a face lacking UV data is
absent from the result and its warning is handed to the logging collaborator,
while every face with UV data is judged by `facePred` unaffected by the
anomalous faces — the run always completes with the accumulated results. -/
theorem claim_C6_cross_border_recovery (r : Runner)
    (hkeys : (r.get_mesh_iterator.map Prod.fst).Nodup)
    (u : String) (m : Mesh) (hm : (u, m) ∈ r.get_mesh_iterator)
    (i : Nat) (hi : i < m.faces.length) :
    ((m.faces.get ⟨i, hi⟩).uvs = none →
      i ∉ (alookup u (CrossBorderCheck.run r)).getD []
        ∧ CrossBorderCheck.warnMsg i ∈ CrossBorderCheck.warningsOf r)
    ∧ (∀ uvs, (m.faces.get ⟨i, hi⟩).uvs = some uvs →
        (i ∈ (alookup u (CrossBorderCheck.run r)).getD []
          ↔ CrossBorderCheck.facePred uvs = true)) := by
  have hrun : CrossBorderCheck.run r
      = r.get_mesh_iterator.foldl
          (fun d p => dictExtend d p.1 (CrossBorderCheck.faceLoop 0 p.2.faces).1) [] := by
    rw [CrossBorderCheck.run, CrossBorderCheck.runFull_eq]
  have hl : (alookup u (CrossBorderCheck.run r)).getD []
      = flaggedIdx CrossBorderCheck.cbPred 0 m.faces := by
    rw [hrun]
    have h2 : (alookup u (r.get_mesh_iterator.foldl
        (fun d p => dictExtend d p.1 (CrossBorderCheck.faceLoop 0 p.2.faces).1) [])).getD []
        = (CrossBorderCheck.faceLoop 0 m.faces).1 :=
      dictExtendFold_lookup_getD
        (fun p : String × Mesh => (CrossBorderCheck.faceLoop 0 p.2.faces).1)
        Prod.fst r.get_mesh_iterator hkeys (u, m) hm
    rw [h2, CrossBorderCheck.faceLoop_fst]
  have hwarn : CrossBorderCheck.warningsOf r
      = r.get_mesh_iterator.flatMap
          (fun p => (CrossBorderCheck.faceLoop 0 p.2.faces).2) := by
    rw [CrossBorderCheck.warningsOf, CrossBorderCheck.runFull_eq]
    exact foldl_append_eq_flatMap _ _ []
  constructor
  · intro hnone
    constructor
    · rw [hl, flaggedIdx_mem]
      rintro ⟨j, hj, rfl, hp⟩
      have hj0 : j = 0 + j := (Nat.zero_add j).symm
      rw [CrossBorderCheck.cbPred] at hp
      have : (m.faces.get ⟨0 + j, by simpa using hj⟩).uvs = none := by
        simpa using hnone
      rw [show (⟨j, hj⟩ : Fin m.faces.length) = ⟨0 + j, by simpa using hj⟩ by
        simp] at hp
      rw [this] at hp
      simp at hp
    · rw [hwarn]
      refine List.mem_flatMap.mpr ⟨(u, m), hm, ?_⟩
      rw [CrossBorderCheck.faceLoop_snd]
      refine List.mem_map.mpr ⟨i, ?_, rfl⟩
      rw [flaggedIdx_mem]
      exact ⟨i, hi, (Nat.zero_add i).symm, by rw [hnone]; rfl⟩
  · intro uvs hsome
    rw [hl, flaggedIdx_mem]
    constructor
    · rintro ⟨j, hj, rfl, hp⟩
      have : (⟨j, hj⟩ : Fin m.faces.length) = ⟨0 + j, by simpa using hj⟩ := by simp
      rw [this] at hp
      rw [CrossBorderCheck.cbPred] at hp
      have hsome' : (m.faces.get ⟨0 + j, by simpa using hj⟩).uvs = some uvs := by
        simpa using hsome
      rw [hsome'] at hp
      exact hp
    · intro hp
      refine ⟨i, hi, (Nat.zero_add i).symm, ?_⟩
      rw [CrossBorderCheck.cbPred, hsome]
      exact hp

theorem claim_C6_cross_border_recovery_witness :
    (1 ∉ (alookup "mesh1" (CrossBorderCheck.run crossRunner)).getD [])
      ∧ (CrossBorderCheck.warnMsg 1 ∈ CrossBorderCheck.warningsOf crossRunner)
      ∧ (0 ∈ (alookup "mesh1" (CrossBorderCheck.run crossRunner)).getD [])
      ∧ (2 ∉ (alookup "mesh1" (CrossBorderCheck.run crossRunner)).getD []) := by
  have h1 := (claim_C6_cross_border_recovery crossRunner (by decide) "mesh1" meshCross
    (by decide) 1 (by decide)).1 (by decide)
  refine ⟨h1.1, h1.2, ?_, ?_⟩
  · exact ((claim_C6_cross_border_recovery crossRunner (by decide) "mesh1" meshCross
      (by decide) 0 (by decide)).2
        [(mkRat 1 2, mkRat 1 2), (mkRat 3 2, mkRat 1 2)] (by decide)).mpr (by decide)
  · intro hmem
    exact absurd (((claim_C6_cross_border_recovery crossRunner (by decide) "mesh1" meshCross
      (by decide) 2 (by decide)).2
        [(mkRat 1 4, mkRat 1 4), (mkRat 1 2, mkRat 1 2)] (by decide)).mp hmem) (by decide)

end MayaLint

namespace MayaLint

/-- C1: for every registered check (distinct mesh uuids assumed), a declared
node-level entity kind yields a plain entity-id list, and a declared component
entity kind (face, vertex, edge, UV) yields a dict from entity id to component
indices whose per-entity lists are strictly ascending — in particular
non-decreasing with no repeated index for the same check+entity pair. -/
theorem claim_C1_shape_invariant (r : Runner)
    (hkeys : (r.get_mesh_iterator.map Prod.fst).Nodup) :
    ∀ c ∈ allChecks,
      (c.decl.node_type = some NodeType.NODE →
        ∃ l, c.native r = CheckResult.nodes l)
      ∧ (∀ k, c.decl.node_type = some k → k ≠ NodeType.NODE →
          ∃ m, c.native r = CheckResult.components m
            ∧ ∀ e ∈ m, e.2.Sorted (· < ·) ∧ e.2.Nodup) := by
  have hsortNgon : ∀ e ∈ NgonCheck.run r, e.2.Sorted (· < ·) ∧ e.2.Nodup := by
    intro e he
    exact sortedEntries_of_flagged
      (fun p : String × Mesh => flaggedIdx NgonCheck.pred 0 p.2.faces)
      Prod.fst r.get_mesh_iterator hkeys
      (fun x _ => flaggedIdx_sorted NgonCheck.pred x.2.faces 0) e he
  have hsortOnBorder : ∀ e ∈ OnBorderCheck.run r, e.2.Sorted (· < ·) ∧ e.2.Nodup := by
    intro e he
    exact sortedEntries_of_flagged
      (fun p : String × Mesh => flaggedIdx OnBorderCheck.pred 0 p.2.meshUVs)
      Prod.fst r.get_mesh_iterator hkeys
      (fun x _ => flaggedIdx_sorted OnBorderCheck.pred x.2.meshUVs 0) e he
  have hsortCross : ∀ e ∈ CrossBorderCheck.run r, e.2.Sorted (· < ·) ∧ e.2.Nodup := by
    intro e he
    have hrun : CrossBorderCheck.run r
        = r.get_mesh_iterator.foldl
            (fun d p => dictExtend d p.1 (CrossBorderCheck.faceLoop 0 p.2.faces).1) [] := by
      rw [CrossBorderCheck.run, CrossBorderCheck.runFull_eq]
    rw [hrun] at he
    refine sortedEntries_of_flagged
      (fun p : String × Mesh => (CrossBorderCheck.faceLoop 0 p.2.faces).1)
      Prod.fst r.get_mesh_iterator hkeys (fun x _ => ?_) e he
    show List.Sorted (· < ·) (CrossBorderCheck.faceLoop 0 x.2.faces).1
    rw [CrossBorderCheck.faceLoop_fst]
    exact flaggedIdx_sorted CrossBorderCheck.cbPred x.2.faces 0
  intro c hc
  simp only [allChecks, List.mem_cons, List.not_mem_nil, or_false] at hc
  rcases hc with rfl | rfl | rfl | rfl | rfl | rfl | rfl | rfl | rfl
  · refine ⟨fun h => ?_, fun k hk hkne => ?_⟩
    · simp [ngonDecl] at h
    · exact ⟨NgonCheck.run r, rfl, hsortNgon⟩
  · refine ⟨fun h => ?_, fun k hk hkne => ?_⟩
    · simp [crossBorderDecl] at h
    · exact ⟨CrossBorderCheck.run r, rfl, hsortCross⟩
  · refine ⟨fun h => ?_, fun k hk hkne => ?_⟩
    · simp [onBorderDecl] at h
    · exact ⟨OnBorderCheck.run r, rfl, hsortOnBorder⟩
  · refine ⟨fun _ => ⟨OnGridCheck.run r, rfl⟩, fun k hk hkne => ?_⟩
    · simp only [onGridDecl, Option.some.injEq] at hk
      exact absurd hk.symm hkne
  · refine ⟨fun h => ?_, fun k hk hkne => ?_⟩
    · simp [layersDecl] at h
    · simp [layersDecl] at hk
  · refine ⟨fun h => ?_, fun k hk hkne => ?_⟩
    · simp [uncenteredPivotsDecl] at h
    · simp [uncenteredPivotsDecl] at hk
  · refine ⟨fun h => ?_, fun k hk hkne => ?_⟩
    · simp [unfrozenTransformsDecl] at h
    · simp [unfrozenTransformsDecl] at hk
  · refine ⟨fun _ => ⟨DuplicatedNamesCheck.run r, rfl⟩, fun k hk hkne => ?_⟩
    · simp only [duplicatedNamesDecl, Option.some.injEq] at hk
      exact absurd hk.symm hkne
  · refine ⟨fun h => ?_, fun k hk hkne => ?_⟩
    · simp [namespacesDecl] at h
    · simp [namespacesDecl] at hk

theorem claim_C1_shape_invariant_witness :
    (∃ m, NgonCheck.result ngonRunner = CheckResult.components m
      ∧ ∀ e ∈ m, e.2.Sorted (· < ·) ∧ e.2.Nodup)
    ∧ (∃ l, DuplicatedNamesCheck.result ngonRunner = CheckResult.nodes l) := by
  have h := claim_C1_shape_invariant ngonRunner (by decide)
  constructor
  · exact (h ⟨ngonDecl, NgonCheck.result⟩ (by simp [allChecks])).2 NodeType.FACE rfl
      (by decide)
  · exact (h ⟨duplicatedNamesDecl, DuplicatedNamesCheck.result⟩ (by simp [allChecks])).1 rfl

end MayaLint
